import Mathlib

/-!
Shallow embedding of `src/app.py`, a minimal pastebin service backed by SQLite.

Modelling conventions:
- The SQLite table `pastes` is modelled as a list of `Paste` records in insertion
  (rowid) order; the UNIQUE constraint on `slug` is modelled by the insert-time
  collision check `slugTaken` (an atomic insert-or-fail against the current state).
- `secrets.choice` draws from an external entropy stream, modelled as a function
  `rands : Nat → Nat` giving the index chosen at each draw; attempt `i` of a
  `create_paste` call consumes draws `6*i .. 6*i+5`.
- Python strings that may be `None` are `Option String`; Python's `x or ""` is
  `Option.getD x ""`, and `s or None` on a string is `if s = "" then none else some s`.
- Python's `str.strip()` is `pyStrip` (drop leading/trailing whitespace).
- Timestamps (`created_at`, assigned by the store at insertion) are `Nat` Unix
  seconds (UTC); `ORDER BY created_at DESC` is sorting by the relation
  `recentOrder`. The `LIMIT ?` parameter is an `Int` with SQLite's semantics:
  a negative limit means no upper bound on the number of rows returned.
- Read-only operations (`get_paste`, `list_recent`) are state transformers that
  return the store unchanged, mirroring that they only run SELECT statements.
-/

/-- Python `str.strip()`: remove leading and trailing whitespace. -/
def pyStrip (s : String) : String :=
  String.mk (((s.data.dropWhile Char.isWhitespace).reverse.dropWhile Char.isWhitespace).reverse)

/-- `string.ascii_letters + string.digits` (src/app.py line 23). -/
def SLUG_ALPHABET : List Char :=
  "abcdefghijklmnopqrstuvwxyzABCDEFGHIJKLMNOPQRSTUVWXYZ0123456789".data

/-- src/app.py line 24. -/
def SLUG_LENGTH : Nat := 6

/-- `secrets.choice(SLUG_ALPHABET)`: one draw from the entropy stream, mapped
into the alphabet. `r` is the raw random value of this draw. -/
def secretsChoice (r : Nat) : Char :=
  SLUG_ALPHABET.getD (r % SLUG_ALPHABET.length) 'a'

/-- `_generate_slug()` (src/app.py lines 55-56): join `SLUG_LENGTH` independent
draws from the alphabet. `attempt` selects which block of the entropy stream
this call consumes. -/
def generate_slug (rands : Nat → Nat) (attempt : Nat) : String :=
  String.mk ((List.range SLUG_LENGTH).map fun j => secretsChoice (rands (SLUG_LENGTH * attempt + j)))

/-- The `Paste` dataclass / one row of the `pastes` table (src/app.py lines 80-85). -/
structure Paste where
  slug : String
  title : Option String
  content : String
  created_at : Nat
deriving DecidableEq, Repr

/-- The `pastes` table, in insertion (rowid) order. -/
abbrev Store := List Paste

/-- The slugs currently present in the store. -/
def slugs (st : Store) : List String := st.map Paste.slug

/-- Whether an INSERT of `s` would violate the UNIQUE constraint on `slug`. -/
def slugTaken (st : Store) (s : String) : Bool :=
  st.any fun p => p.slug == s

/-- The retry loop of `create_paste` (src/app.py lines 66-77): up to `fuel`
attempts, numbered from `i`; each attempt generates a fresh candidate slug and
tries the atomic INSERT, returning the slug immediately on success and retrying
on a uniqueness violation. -/
def insert_attempts (rands : Nat → Nat) (t : Option String) (c : String) (now : Nat)
    (st : Store) : Nat → Nat → Option String × Store
  | _, 0 => (none, st)
  | i, fuel + 1 =>
    let slug := generate_slug rands i
    if slugTaken st slug then
      insert_attempts rands t c now st (i + 1) fuel
    else
      (some slug, st ++ [⟨slug, t, c, now⟩])

/-- `create_paste(title, content)` (src/app.py lines 59-77). `now` is the
store-assigned insertion timestamp (`CURRENT_TIMESTAMP`). Returns the slug on
success and `none` on failure, together with the new store state. -/
def create_paste (rands : Nat → Nat) (title content : Option String) (now : Nat)
    (st : Store) : Option String × Store :=
  let c := pyStrip (content.getD "")
  if c = "" then
    (none, st)
  else
    let t0 := pyStrip (title.getD "")
    let t : Option String := if t0 = "" then none else some t0
    insert_attempts rands t c now st 0 10

/-- `get_paste(slug)` (src/app.py lines 88-105): SELECT the row whose slug equals
the argument; read-only, so the store comes back unchanged. -/
def get_paste (st : Store) (slug : String) : Option Paste × Store :=
  (st.find? fun p => p.slug == slug, st)

/-- `ORDER BY created_at DESC`: `a` comes no later than `b` when its timestamp
is no smaller. -/
def recentOrder (a b : Paste) : Prop := b.created_at ≤ a.created_at

instance : DecidableRel recentOrder := fun a b => Nat.decLe b.created_at a.created_at

instance : IsTotal Paste recentOrder := ⟨fun a b => Nat.le_total b.created_at a.created_at⟩

instance : IsTrans Paste recentOrder := ⟨fun _ _ _ h1 h2 => Nat.le_trans h2 h1⟩

/-- `list_recent(limit)` (src/app.py lines 108-133): SELECT ordered by
`created_at` descending, LIMIT `limit`; read-only. Per SQLite, a negative
`LIMIT` value places no upper bound on the number of rows returned. -/
def list_recent (st : Store) (limit : Int) : List Paste × Store :=
  (if limit < 0 then st.insertionSort recentOrder
    else (st.insertionSort recentOrder).take limit.toNat, st)

/-- One escaped character of Python's `html.escape` (quote=True): `&`, `<`, `>`,
`"` and the apostrophe (codepoint 39) become entities. -/
def escapeChar (c : Char) : String :=
  if c = '&' then "&amp;"
  else if c = '<' then "&lt;"
  else if c = '>' then "&gt;"
  else if c = '"' then "&quot;"
  else if c = Char.ofNat 39 then "&#x27;"
  else String.singleton c

/-- Character-wise expansion of a whole string. -/
def escList : List Char → List Char
  | [] => []
  | c :: cs => (escapeChar c).data ++ escList cs

/-- Python `html.escape(s, quote=True)`. Since every replaced pattern is a single
character and `&` is replaced first, the sequential `str.replace` chain of the
stdlib is exactly this character-wise expansion. -/
def html_escape (s : String) : String :=
  String.mk (escList s.data)

/-- Python `paste.title or paste.slug` (src/app.py line 141): `None` and the
empty string both fall through to the default. -/
def pyOr (t : Option String) (d : String) : String :=
  match t with
  | none => d
  | some s => if s = "" then d else s

/-- A calendar/clock field zero-padded to two digits, as `strftime` prints
`%m %d %H %M %S`. -/
def twoDigits (n : Nat) : String :=
  (if n < 10 then "0" else "") ++ toString n

/-- Civil date from a count of days since 1970-01-01 (proleptic Gregorian
calendar, the one `datetime` uses): returns `(year, month, day)`. Standard
era-based decomposition; all quantities stay nonnegative for `z0 ≥ 0`. -/
def civilFromDays (z0 : Nat) : Nat × Nat × Nat :=
  let z := z0 + 719468
  let era := z / 146097
  let doe := z % 146097
  let yoe := (doe - doe / 1460 + doe / 36524 - doe / 146096) / 365
  let y0 := yoe + era * 400
  let doy := doe - (365 * yoe + yoe / 4 - yoe / 100)
  let mp := (5 * doy + 2) / 153
  let d := doy - (153 * mp + 2) / 5 + 1
  let m := if mp < 10 then mp + 3 else mp - 9
  (if m ≤ 2 then y0 + 1 else y0, m, d)

/-- `paste.created_at.strftime("%Y-%m-%d %H:%M:%S")` (src/app.py line 143),
with the `datetime` value modelled as its timestamp in Unix seconds (UTC, the
timescale of SQLite's `CURRENT_TIMESTAMP`): `YYYY-MM-DD HH:MM:SS` with
zero-padded two-digit fields (`%Y` prints the full year, four digits on the
whole representable `datetime` range). -/
def strftimeYmdHms (t : Nat) : String :=
  let ymd := civilFromDays (t / 86400)
  let secs := t % 86400
  toString ymd.1 ++ "-" ++ twoDigits ymd.2.1 ++ "-" ++ twoDigits ymd.2.2 ++ " " ++
    twoDigits (secs / 3600) ++ ":" ++ twoDigits (secs % 3600 / 60) ++ ":" ++
    twoDigits (secs % 60)

/-- `render_paste_page(paste)` (src/app.py lines 140-149), with the template
text (loaded from `templates/paste.html`, not present under src/) taken as the
parameter `tmpl`. -/
def render_paste_page (tmpl : String) (p : Paste) : String :=
  let title := html_escape (pyOr p.title p.slug)
  let content := html_escape p.content
  let created := strftimeYmdHms p.created_at
  ((((tmpl.replace "\x7b\x7bTITLE\x7d\x7d" title).replace
      "\x7b\x7bCREATED_AT\x7d\x7d" created).replace
      "\x7b\x7bSLUG\x7d\x7d" p.slug).replace
      "\x7b\x7bCONTENT\x7d\x7d" content)

/-- An HTTP response of the raw endpoint: not-found, or a body with a
Content-Type header. -/
inductive HttpRaw where
  | notFound
  | ok (contentType : String) (body : String)
deriving DecidableEq, Repr

/-- `PasteRequestHandler._serve_raw(slug)` (src/app.py lines 206-216): look up
the paste and return its content verbatim as `text/plain`. -/
def serve_raw (st : Store) (slug : String) : HttpRaw :=
  match (get_paste st slug).1 with
  | none => HttpRaw.notFound
  | some p => HttpRaw.ok "text/plain; charset=utf-8" p.content

/-- One `create` request: its entropy stream, form fields, and the timestamp the
store will assign. -/
structure CreateReq where
  rands : Nat → Nat
  title : Option String
  content : Option String
  now : Nat

/-- Run a sequence of `create_paste` calls, collecting the successfully returned
slugs in order. -/
def runCreates : List CreateReq → Store → List String × Store
  | [], st => ([], st)
  | r :: rs, st =>
    let res := create_paste r.rands r.title r.content r.now st
    let rest := runCreates rs res.2
    (res.1.toList ++ rest.1, rest.2)

/-! ### Basic lemmas about the collision check and the retry loop -/

theorem slugTaken_false_iff {st : Store} {s : String} :
    slugTaken st s = false ↔ ∀ p ∈ st, p.slug ≠ s := by
  simp [slugTaken]

theorem slugTaken_true_iff {st : Store} {s : String} :
    slugTaken st s = true ↔ s ∈ slugs st := by
  simp [slugTaken, slugs]

theorem insert_attempts_succ (rands : Nat → Nat) (t : Option String) (c : String) (now : Nat)
    (st : Store) (i fuel : Nat) :
    insert_attempts rands t c now st i (fuel + 1) =
      if slugTaken st (generate_slug rands i) then
        insert_attempts rands t c now st (i + 1) fuel
      else
        (some (generate_slug rands i),
          st ++ [⟨generate_slug rands i, t, c, now⟩]) := rfl

theorem insert_attempts_all_taken (rands : Nat → Nat) (t : Option String) (c : String)
    (now : Nat) :
    ∀ fuel i (st : Store),
      (∀ k, k < fuel → slugTaken st (generate_slug rands (i + k)) = true) →
      insert_attempts rands t c now st i fuel = (none, st) := by
  intro fuel
  induction fuel with
  | zero => intro i st _; rfl
  | succ n ih =>
    intro i st h
    have h0 : slugTaken st (generate_slug rands i) = true := by
      have := h 0 (Nat.succ_pos n)
      simpa using this
    rw [insert_attempts_succ, if_pos h0]
    exact ih (i + 1) st fun k hk => by
      have := h (k + 1) (Nat.succ_lt_succ hk)
      have harith : i + (k + 1) = i + 1 + k := by omega
      rwa [harith] at this

theorem insert_attempts_first_free (rands : Nat → Nat) (t : Option String) (c : String)
    (now : Nat) :
    ∀ fuel i (st : Store) k, k < fuel →
      slugTaken st (generate_slug rands (i + k)) = false →
      (∀ j, j < k → slugTaken st (generate_slug rands (i + j)) = true) →
      insert_attempts rands t c now st i fuel =
        (some (generate_slug rands (i + k)),
          st ++ [⟨generate_slug rands (i + k), t, c, now⟩]) := by
  intro fuel
  induction fuel with
  | zero => intro i st k hk; omega
  | succ n ih =>
    intro i st k hk hfree hprev
    cases k with
    | zero =>
      have h0 : slugTaken st (generate_slug rands i) = false := by simpa using hfree
      have h0' : ¬ slugTaken st (generate_slug rands i) = true := by simp [h0]
      rw [insert_attempts_succ, if_neg h0']
      simp
    | succ m =>
      have h0 : slugTaken st (generate_slug rands i) = true := by
        have := hprev 0 (Nat.succ_pos m)
        simpa using this
      rw [insert_attempts_succ, if_pos h0]
      have harith : i + (m + 1) = i + 1 + m := by omega
      rw [harith] at hfree ⊢
      exact ih (i + 1) st m (by omega) hfree fun j hj => by
        have := hprev (j + 1) (Nat.succ_lt_succ hj)
        have harith2 : i + (j + 1) = i + 1 + j := by omega
        rwa [harith2] at this

theorem insert_attempts_some_inv (rands : Nat → Nat) (t : Option String) (c : String)
    (now : Nat) :
    ∀ fuel i (st : Store) s st',
      insert_attempts rands t c now st i fuel = (some s, st') →
      ∃ k, k < fuel ∧ s = generate_slug rands (i + k) ∧
        slugTaken st s = false ∧ st' = st ++ [⟨s, t, c, now⟩] := by
  intro fuel
  induction fuel with
  | zero =>
    intro i st s st' h
    exact absurd h (by simp [insert_attempts])
  | succ n ih =>
    intro i st s st' h
    rw [insert_attempts_succ] at h
    by_cases hb : slugTaken st (generate_slug rands i) = true
    · rw [if_pos hb] at h
      obtain ⟨k, hk, hs, hfree, hst⟩ := ih (i + 1) st s st' h
      refine ⟨k + 1, by omega, ?_, hfree, hst⟩
      rw [hs]
      congr 1
      omega
    · rw [if_neg hb] at h
      have hs : generate_slug rands i = s := by
        have := congrArg Prod.fst h
        simpa using this
      have hst : st' = st ++ [⟨generate_slug rands i, t, c, now⟩] := by
        have := congrArg Prod.snd h
        simpa using this.symm
      have hb' : slugTaken st (generate_slug rands i) = false := by simpa using hb
      refine ⟨0, by omega, by simpa using hs.symm, ?_, ?_⟩
      · rw [← hs]; exact hb'
      · rw [hst, ← hs]

theorem insert_attempts_none_inv (rands : Nat → Nat) (t : Option String) (c : String)
    (now : Nat) :
    ∀ fuel i (st : Store) st',
      insert_attempts rands t c now st i fuel = (none, st') → st' = st := by
  intro fuel
  induction fuel with
  | zero =>
    intro i st st' h
    have := congrArg Prod.snd h
    simpa [insert_attempts] using this.symm
  | succ n ih =>
    intro i st st' h
    rw [insert_attempts_succ] at h
    by_cases hb : slugTaken st (generate_slug rands i) = true
    · rw [if_pos hb] at h
      exact ih (i + 1) st st' h
    · rw [if_neg hb] at h
      exact absurd (congrArg Prod.fst h) (by simp)

/-! ### Characterizations of `create_paste` -/

theorem create_paste_of_empty (rands : Nat → Nat) (title content : Option String)
    (now : Nat) (st : Store) (hc : pyStrip (content.getD "") = "") :
    create_paste rands title content now st = (none, st) := by
  simp [create_paste, hc]

theorem create_paste_of_nonempty (rands : Nat → Nat) (title content : Option String)
    (now : Nat) (st : Store) (hc : pyStrip (content.getD "") ≠ "") :
    create_paste rands title content now st =
      insert_attempts rands
        (if pyStrip (title.getD "") = "" then none else some (pyStrip (title.getD "")))
        (pyStrip (content.getD "")) now st 0 10 := by
  simp [create_paste, hc]

theorem create_paste_some_inv (rands : Nat → Nat) (title content : Option String)
    (now : Nat) (st : Store) (s : String) (st' : Store)
    (h : create_paste rands title content now st = (some s, st')) :
    pyStrip (content.getD "") ≠ "" ∧
    ∃ k, k < 10 ∧ s = generate_slug rands k ∧ slugTaken st s = false ∧
      st' = st ++ [⟨s,
        if pyStrip (title.getD "") = "" then none else some (pyStrip (title.getD "")),
        pyStrip (content.getD ""), now⟩] := by
  by_cases hc : pyStrip (content.getD "") = ""
  · rw [create_paste_of_empty rands title content now st hc] at h
    exact absurd (congrArg Prod.fst h) (by simp)
  · rw [create_paste_of_nonempty rands title content now st hc] at h
    obtain ⟨k, hk, hs, hfree, hst⟩ := insert_attempts_some_inv rands _ _ now 10 0 st s st' h
    exact ⟨hc, k, hk, by simpa using hs, hfree, hst⟩

theorem create_paste_none_inv (rands : Nat → Nat) (title content : Option String)
    (now : Nat) (st : Store) (st' : Store)
    (h : create_paste rands title content now st = (none, st')) : st' = st := by
  by_cases hc : pyStrip (content.getD "") = ""
  · rw [create_paste_of_empty rands title content now st hc] at h
    exact (congrArg Prod.snd h).symm
  · rw [create_paste_of_nonempty rands title content now st hc] at h
    exact insert_attempts_none_inv rands _ _ now 10 0 st st' h

theorem slugs_append (st : Store) (p : Paste) :
    slugs (st ++ [p]) = slugs st ++ [p.slug] := by
  simp [slugs]

theorem create_paste_slugs_subset (rands : Nat → Nat) (title content : Option String)
    (now : Nat) (st : Store) :
    ∀ s0 ∈ slugs st, s0 ∈ slugs (create_paste rands title content now st).2 := by
  intro s0 hs0
  rcases h : create_paste rands title content now st with ⟨o, st'⟩
  cases o with
  | none =>
    have := create_paste_none_inv rands title content now st st' h
    simpa [this] using hs0
  | some s =>
    obtain ⟨-, k, -, -, -, hst⟩ := create_paste_some_inv rands title content now st s st' h
    simp [hst, slugs_append]
    exact Or.inl hs0

/-! ### Lemmas about sequences of `create` calls -/

theorem runCreates_cons (r : CreateReq) (rs : List CreateReq) (st : Store) :
    runCreates (r :: rs) st =
      ((create_paste r.rands r.title r.content r.now st).1.toList ++
        (runCreates rs (create_paste r.rands r.title r.content r.now st).2).1,
       (runCreates rs (create_paste r.rands r.title r.content r.now st).2).2) := rfl

theorem runCreates_slugs_mono :
    ∀ (rs : List CreateReq) (st : Store), ∀ s0 ∈ slugs st, s0 ∈ slugs (runCreates rs st).2 := by
  intro rs
  induction rs with
  | nil =>
    intro st s0 h
    simpa [runCreates] using h
  | cons r rs ih =>
    intro st s0 h
    rw [runCreates_cons]
    exact ih _ s0 (create_paste_slugs_subset r.rands r.title r.content r.now st s0 h)

theorem runCreates_fresh :
    ∀ (rs : List CreateReq) (st : Store), ∀ s0 ∈ slugs st, s0 ∉ (runCreates rs st).1 := by
  intro rs
  induction rs with
  | nil =>
    intro st s0 _
    simp [runCreates]
  | cons r rs ih =>
    intro st s0 h
    rw [runCreates_cons]
    simp only [List.mem_append]
    rintro (h1 | h2)
    · rcases hres : create_paste r.rands r.title r.content r.now st with ⟨o, st'⟩
      rw [hres] at h1
      cases o with
      | none => simp at h1
      | some s =>
        simp only [Option.toList, List.mem_singleton] at h1
        subst h1
        obtain ⟨-, k, -, -, hfree, -⟩ :=
          create_paste_some_inv r.rands r.title r.content r.now st s0 st' hres
        exact absurd (slugTaken_true_iff.mpr h) (by simp [hfree])
    · exact ih _ s0 (create_paste_slugs_subset r.rands r.title r.content r.now st s0 h) h2

theorem runCreates_returned_nodup :
    ∀ (rs : List CreateReq) (st : Store), (runCreates rs st).1.Nodup := by
  intro rs
  induction rs with
  | nil =>
    intro st
    simp [runCreates]
  | cons r rs ih =>
    intro st
    rw [runCreates_cons]
    rcases hres : create_paste r.rands r.title r.content r.now st with ⟨o, st'⟩
    cases o with
    | none => simpa using ih st'
    | some s =>
      simp only [Option.toList, List.singleton_append, List.nodup_cons]
      refine ⟨?_, ih st'⟩
      obtain ⟨-, k, -, -, -, hst⟩ :=
        create_paste_some_inv r.rands r.title r.content r.now st s st' hres
      have hmem : s ∈ slugs st' := by
        rw [hst, slugs_append]
        simp
      exact runCreates_fresh rs st' s hmem

theorem create_paste_store_nodup (rands : Nat → Nat) (title content : Option String)
    (now : Nat) (st : Store) (h : (slugs st).Nodup) :
    (slugs (create_paste rands title content now st).2).Nodup := by
  rcases hres : create_paste rands title content now st with ⟨o, st'⟩
  cases o with
  | none =>
    rw [create_paste_none_inv rands title content now st st' hres]
    exact h
  | some s =>
    obtain ⟨-, k, -, -, hfree, hst⟩ :=
      create_paste_some_inv rands title content now st s st' hres
    have hnotmem : s ∉ slugs st := fun hmem => by
      exact absurd (slugTaken_true_iff.mpr hmem) (by simp [hfree])
    rw [hst, slugs_append]
    simp [List.nodup_append, h]
    exact hnotmem

theorem runCreates_store_nodup :
    ∀ (rs : List CreateReq) (st : Store),
      (slugs st).Nodup → (slugs (runCreates rs st).2).Nodup := by
  intro rs
  induction rs with
  | nil =>
    intro st h
    simpa [runCreates] using h
  | cons r rs ih =>
    intro st h
    rw [runCreates_cons]
    exact ih _ (create_paste_store_nodup r.rands r.title r.content r.now st h)

theorem runCreates_slugs_from_returned :
    ∀ (rs : List CreateReq) (st : Store), ∀ s0 ∈ slugs (runCreates rs st).2,
      s0 ∈ slugs st ∨ s0 ∈ (runCreates rs st).1 := by
  intro rs
  induction rs with
  | nil =>
    intro st s0 h
    exact Or.inl (by simpa [runCreates] using h)
  | cons r rs ih =>
    intro st s0 h
    rw [runCreates_cons] at h ⊢
    rcases ih _ s0 h with h1 | h2
    · rcases hres : create_paste r.rands r.title r.content r.now st with ⟨o, st'⟩
      rw [hres] at h1
      cases o with
      | none =>
        rw [create_paste_none_inv r.rands r.title r.content r.now st st' hres] at h1
        exact Or.inl h1
      | some s =>
        obtain ⟨-, k, -, -, -, hst⟩ :=
          create_paste_some_inv r.rands r.title r.content r.now st s st' hres
        rw [hst, slugs_append] at h1
        rcases List.mem_append.mp h1 with h1a | h1b
        · exact Or.inl h1a
        · refine Or.inr ?_
          simp at h1b
          simp [h1b]
    · refine Or.inr (List.mem_append.mpr (Or.inr ?_))
      exact h2

/-! ### Lookup and escaping lemmas -/

theorem get_paste_state (st : Store) (s : String) : (get_paste st s).2 = st := rfl

theorem get_paste_some_inv (st : Store) (s : String) (p : Paste)
    (h : (get_paste st s).1 = some p) : p.slug = s ∧ p ∈ st := by
  have h1 := List.find?_some h
  have h2 := List.mem_of_find?_eq_some h
  exact ⟨by simpa using h1, h2⟩

theorem get_paste_none_iff (st : Store) (s : String) :
    (get_paste st s).1 = none ↔ ∀ p ∈ st, p.slug ≠ s := by
  simp [get_paste]

theorem get_paste_append_fresh (st : Store) (p : Paste)
    (hfresh : ∀ q ∈ st, q.slug ≠ p.slug) :
    (get_paste (st ++ [p]) p.slug).1 = some p := by
  have h1 : (get_paste st p.slug).1 = none := (get_paste_none_iff st p.slug).mpr hfresh
  simp only [get_paste, List.find?_append] at h1 ⊢
  rw [h1]
  simp

theorem escapeChar_no_markup (c : Char) :
    ∀ c' ∈ (escapeChar c).data, c' ≠ '<' ∧ c' ≠ '>' := by
  intro c' hc'
  have hsing : ∀ a : Char, (String.singleton a).data = [a] := fun _ => rfl
  unfold escapeChar at hc'
  repeat' split at hc'
  all_goals constructor <;> rintro rfl <;> first
    | exact absurd hc' (by decide)
    | (rw [hsing] at hc'
       simp only [List.mem_singleton] at hc'
       exact absurd hc'.symm (by assumption))

theorem escList_no_markup (l : List Char) :
    ∀ c' ∈ escList l, c' ≠ '<' ∧ c' ≠ '>' := by
  induction l with
  | nil => intro c' hc'; simp [escList] at hc'
  | cons c cs ih =>
    intro c' hc'
    rcases List.mem_append.mp hc' with h | h
    · exact escapeChar_no_markup c c' h
    · exact ih c' h

theorem html_escape_no_markup (s : String) :
    ∀ c' ∈ (html_escape s).data, c' ≠ '<' ∧ c' ≠ '>' := by
  intro c' hc'
  exact escList_no_markup s.data c' hc'

/-! ### Slug shape lemmas -/

theorem secretsChoice_mem (r : Nat) : secretsChoice r ∈ SLUG_ALPHABET := by
  have hpos : 0 < SLUG_ALPHABET.length := by decide
  have hlt : r % SLUG_ALPHABET.length < SLUG_ALPHABET.length := Nat.mod_lt _ hpos
  rw [secretsChoice, List.getD_eq_getElem?_getD, List.getElem?_eq_getElem hlt]
  exact List.getElem_mem hlt

theorem generate_slug_length (rands : Nat → Nat) (attempt : Nat) :
    (generate_slug rands attempt).length = SLUG_LENGTH := by
  simp [generate_slug, String.length]

theorem generate_slug_chars (rands : Nat → Nat) (attempt : Nat) :
    ∀ c ∈ (generate_slug rands attempt).data, c ∈ SLUG_ALPHABET := by
  intro c hc
  simp only [generate_slug, List.mem_map, List.mem_range] at hc
  obtain ⟨j, -, rfl⟩ := hc
  exact secretsChoice_mem _

/-! ### Claim theorems -/

/-- Claim C1 (round trip): any successful `create(title, content)` returning slug
`s` followed by `get(s)` yields a record whose `content` is the trimmed input
content and whose `title` is the trimmed input title, or absent when the trimmed
title was empty. -/
theorem round_trip_create_get (rands : Nat → Nat) (title content : Option String)
    (now : Nat) (st : Store) (s : String) (st' : Store)
    (h : create_paste rands title content now st = (some s, st')) :
    (get_paste st' s).1 = some ⟨s,
      if pyStrip (title.getD "") = "" then none else some (pyStrip (title.getD "")),
      pyStrip (content.getD ""), now⟩ := by
  obtain ⟨-, k, -, -, hfree, hst⟩ := create_paste_some_inv rands title content now st s st' h
  rw [hst]
  exact get_paste_append_fresh st _ (slugTaken_false_iff.mp hfree)

/-- Witness for C1: a concrete create followed by get returns the trimmed record. -/
theorem round_trip_create_get_witness :
    (get_paste (create_paste (fun _ => 0) (some " T ") (some " hi ") 7 []).2 "aaaaaa").1 =
      some ⟨"aaaaaa", some "T", "hi", 7⟩ := by
  have h : create_paste (fun _ => 0) (some " T ") (some " hi ") 7 [] =
      (some "aaaaaa", [⟨"aaaaaa", some "T", "hi", 7⟩]) := by decide
  have h2 := round_trip_create_get (fun _ => 0) (some " T ") (some " hi ") 7 []
    "aaaaaa" [⟨"aaaaaa", some "T", "hi", 7⟩] h
  rw [h]
  exact h2.trans (by decide)

/-- Claim C2 (slug uniqueness): in every reachable store state the slugs are
pairwise distinct; `create` preserves the invariant and `get`/`list_recent`
leave the store unchanged; and across any sequence of `create` calls, all
successfully returned slugs are pairwise distinct. -/
theorem slug_uniqueness_invariant :
    (∀ (rands : Nat → Nat) (title content : Option String) (now : Nat) (st : Store),
      (slugs st).Nodup → (slugs (create_paste rands title content now st).2).Nodup) ∧
    (∀ (st : Store) (s : String), (get_paste st s).2 = st) ∧
    (∀ (st : Store) (limit : Int), (list_recent st limit).2 = st) ∧
    (∀ (reqs : List CreateReq) (st : Store), (slugs st).Nodup →
      (slugs (runCreates reqs st).2).Nodup) ∧
    (∀ (reqs : List CreateReq) (st : Store), (runCreates reqs st).1.Nodup) :=
  ⟨fun rands title content now st h => create_paste_store_nodup rands title content now st h,
    fun _ _ => rfl, fun _ _ => rfl,
    fun reqs st h => runCreates_store_nodup reqs st h,
    fun reqs st => runCreates_returned_nodup reqs st⟩

/-- Witness for C2: concrete creates keep the store invariant and return
pairwise distinct slugs. -/
theorem slug_uniqueness_invariant_witness :
    (slugs (create_paste (fun _ => 0) none (some "x") 0 []).2).Nodup ∧
    (runCreates [⟨fun _ => 0, none, some "x", 0⟩, ⟨fun _ => 1, none, some "y", 1⟩] []).1.Nodup :=
  ⟨slug_uniqueness_invariant.1 (fun _ => 0) none (some "x") 0 [] (by decide),
   slug_uniqueness_invariant.2.2.2.2 [⟨fun _ => 0, none, some "x", 0⟩,
     ⟨fun _ => 1, none, some "y", 1⟩] []⟩

/-- Claim C3 (rejection of empty content): when the trimmed content is empty,
`create` fails with the failure value and the store is untouched (the emptiness
test happens before any storage access in the source). -/
theorem create_rejects_empty_content (rands : Nat → Nat) (title content : Option String)
    (now : Nat) (st : Store) (hc : pyStrip (content.getD "") = "") :
    create_paste rands title content now st = (none, st) :=
  create_paste_of_empty rands title content now st hc

/-- Witness for C3: empty and whitespace-only contents are both rejected with no
new record. -/
theorem create_rejects_empty_content_witness :
    create_paste (fun _ => 0) (some "anything") (some "") 3 [] = (none, []) ∧
    create_paste (fun _ => 0) (some "anything") (some "   ") 3 [] = (none, []) :=
  ⟨create_rejects_empty_content (fun _ => 0) (some "anything") (some "") 3 [] (by decide),
   create_rejects_empty_content (fun _ => 0) (some "anything") (some "   ") 3 [] (by decide)⟩

/-- Claim C4 (bounded retry and exhaustion): `create` makes at most 10 insertion
attempts with fresh candidate slugs; the first attempt whose insert succeeds
returns immediately; if all 10 candidates collide it fails with no new record. -/
theorem create_bounded_retry (rands : Nat → Nat) (title content : Option String)
    (now : Nat) (st : Store) (hc : pyStrip (content.getD "") ≠ "") :
    ((∀ k, k < 10 → slugTaken st (generate_slug rands k) = true) →
      create_paste rands title content now st = (none, st)) ∧
    (∀ k, k < 10 → slugTaken st (generate_slug rands k) = false →
      (∀ j, j < k → slugTaken st (generate_slug rands j) = true) →
      create_paste rands title content now st =
        (some (generate_slug rands k),
          st ++ [⟨generate_slug rands k,
            if pyStrip (title.getD "") = "" then none else some (pyStrip (title.getD "")),
            pyStrip (content.getD ""), now⟩])) ∧
    (∀ s st', create_paste rands title content now st = (some s, st') →
      ∃ k, k < 10 ∧ s = generate_slug rands k) := by
  refine ⟨?_, ?_, ?_⟩
  · intro hall
    rw [create_paste_of_nonempty rands title content now st hc]
    exact insert_attempts_all_taken rands _ _ now 10 0 st fun k hk => by
      simpa using hall k hk
  · intro k hk hfree hprev
    rw [create_paste_of_nonempty rands title content now st hc]
    have h := insert_attempts_first_free rands
      (if pyStrip (title.getD "") = "" then none else some (pyStrip (title.getD "")))
      (pyStrip (content.getD "")) now 10 0 st k hk
      (by simpa using hfree) (fun j hj => by simpa using hprev j hj)
    simpa using h
  · intro s st' h
    obtain ⟨-, k, hk, hs, -, -⟩ := create_paste_some_inv rands title content now st s st' h
    exact ⟨k, hk, hs⟩

/-- Witness for C4: with a constant entropy stream, a fully colliding store
exhausts all attempts and an empty store succeeds on the first attempt. -/
theorem create_bounded_retry_witness :
    create_paste (fun _ => 0) none (some "hi") 0 [⟨"aaaaaa", none, "y", 0⟩] =
      (none, [⟨"aaaaaa", none, "y", 0⟩]) ∧
    create_paste (fun _ => 0) none (some "hi") 0 [] =
      (some "aaaaaa", [⟨"aaaaaa", none, "hi", 0⟩]) := by
  constructor
  · exact (create_bounded_retry (fun _ => 0) none (some "hi") 0
      [⟨"aaaaaa", none, "y", 0⟩] (by decide)).1 (by decide)
  · have h := (create_bounded_retry (fun _ => 0) none (some "hi") 0 [] (by decide)).2.1
      0 (by decide) (by decide) (fun j hj => absurd hj (by omega))
    exact h.trans (by decide)

/-- Counterexample to C5 as stated: an empty-content failure and a
retry-exhaustion failure (constant entropy stream against a store already
holding the only candidate slug) produce the very same return value `none` —
the two failure outcomes are not distinguishable by the caller. -/
theorem create_failures_same_value :
    create_paste (fun _ => 0) (some "anything") (some "") 0 [⟨"aaaaaa", none, "t", 0⟩] =
      (none, [⟨"aaaaaa", none, "t", 0⟩]) ∧
    create_paste (fun _ => 0) (some "anything") (some "xyz") 0 [⟨"aaaaaa", none, "t", 0⟩] =
      (none, [⟨"aaaaaa", none, "t", 0⟩]) ∧
    create_paste (fun _ => 0) (some "anything") (some "") 0 [⟨"aaaaaa", none, "t", 0⟩] =
      create_paste (fun _ => 0) (some "anything") (some "xyz") 0 [⟨"aaaaaa", none, "t", 0⟩] := by
  refine ⟨by decide, by decide, by decide⟩

/-- Amended C5: `create` returns either a slug or the single failure value
`none`; both the empty-content failure and the retry-exhaustion failure are
reported as `none`, so the two failure modes are not distinguishable from the
return value; a successful return is a slug not previously in the store. -/
theorem create_failure_outcomes (rands : Nat → Nat) (title content : Option String)
    (now : Nat) (st : Store) :
    (pyStrip (content.getD "") = "" → (create_paste rands title content now st).1 = none) ∧
    ((∀ k, k < 10 → slugTaken st (generate_slug rands k) = true) →
      (create_paste rands title content now st).1 = none) ∧
    (∀ s, (create_paste rands title content now st).1 = some s → s ∉ slugs st) := by
  refine ⟨?_, ?_, ?_⟩
  · intro hc
    rw [create_paste_of_empty rands title content now st hc]
  · intro hall
    by_cases hc : pyStrip (content.getD "") = ""
    · rw [create_paste_of_empty rands title content now st hc]
    · rw [create_paste_of_nonempty rands title content now st hc]
      rw [insert_attempts_all_taken rands _ _ now 10 0 st fun k hk => by
        simpa using hall k hk]
  · intro s h
    have h2 : create_paste rands title content now st =
        (some s, (create_paste rands title content now st).2) := by
      rw [← h]
    obtain ⟨-, k, -, -, hfree, -⟩ :=
      create_paste_some_inv rands title content now st s _ h2
    intro hmem
    exact absurd (slugTaken_true_iff.mpr hmem) (by simp [hfree])

/-- Witness for the amended C5: both failure modes observed concretely, each
reported as `none`. -/
theorem create_failure_outcomes_witness :
    (create_paste (fun _ => 0) none (some " ") 0 []).1 = none ∧
    (create_paste (fun _ => 0) none (some "x") 0 [⟨"aaaaaa", none, "t", 0⟩]).1 = none :=
  ⟨(create_failure_outcomes (fun _ => 0) none (some " ") 0 []).1 (by decide),
   (create_failure_outcomes (fun _ => 0) none (some "x") 0
     [⟨"aaaaaa", none, "t", 0⟩]).2.1 (by decide)⟩

/-- Claim C6 (slug shape): the alphabet has 62 characters (upper, lower, digits),
the length is 6, and every slug returned by a successful `create` — equivalently
every output of the slug generator — has exactly that length and draws all its
characters from the alphabet. -/
theorem slug_shape (rands : Nat → Nat) (title content : Option String) (now : Nat)
    (st : Store) (s : String) (st' : Store)
    (hcreate : create_paste rands title content now st = (some s, st')) :
    SLUG_LENGTH = 6 ∧ SLUG_ALPHABET.length = 62 ∧
    s.length = SLUG_LENGTH ∧ (∀ c ∈ s.data, c ∈ SLUG_ALPHABET) ∧
    (∀ (rands2 : Nat → Nat) (attempt : Nat),
      (generate_slug rands2 attempt).length = SLUG_LENGTH ∧
      ∀ c ∈ (generate_slug rands2 attempt).data, c ∈ SLUG_ALPHABET) := by
  obtain ⟨-, k, -, hs, -, -⟩ := create_paste_some_inv rands title content now st s st' hcreate
  subst hs
  exact ⟨rfl, by decide, generate_slug_length rands k, generate_slug_chars rands k,
    fun rands2 attempt => ⟨generate_slug_length rands2 attempt,
      generate_slug_chars rands2 attempt⟩⟩

/-- Witness for C6: the slug of a concrete successful create has length 6 over
the 62-character alphabet. -/
theorem slug_shape_witness :
    "aaaaaa".length = SLUG_LENGTH ∧ ∀ c ∈ "aaaaaa".data, c ∈ SLUG_ALPHABET := by
  have h : create_paste (fun _ => 0) none (some "x") 0 [] =
      (some "aaaaaa", [⟨"aaaaaa", none, "x", 0⟩]) := by decide
  have h2 := slug_shape (fun _ => 0) none (some "x") 0 [] "aaaaaa"
    [⟨"aaaaaa", none, "x", 0⟩] h
  exact ⟨h2.2.2.1, h2.2.2.2.1⟩

/-- Counterexample to C7 as stated: at the negative integer limit -1, SQLite's
`LIMIT` imposes no upper bound, so on a store holding one paste `list_recent(-1)`
returns that paste — one element, not "at most -1". -/
theorem list_recent_negative_limit_cex :
    (list_recent [⟨"a1", none, "one", 1⟩] (-1)).1 = [⟨"a1", none, "one", 1⟩] ∧
    ¬(((list_recent [⟨"a1", none, "one", 1⟩] (-1)).1.length : Int) ≤ -1) := by
  constructor
  · decide
  · decide

/-- Amended C7 (recency listing): for every nonnegative integer limit,
`list_recent(limit)` returns a materialized list of at most `limit` pastes; for
a negative limit it returns all stored pastes (SQLite places no upper bound);
in both cases the result is drawn from the store, ordered by `created_at`
descending, with the store untouched; and for three pastes created at strictly
increasing timestamps, `list_recent(2)` is exactly the third then the second. -/
theorem list_recent_spec :
    (∀ (st : Store) (limit : Int),
      (0 ≤ limit → ((list_recent st limit).1.length : Int) ≤ limit) ∧
      (limit < 0 → (list_recent st limit).1.length = st.length) ∧
      List.Sorted recentOrder (list_recent st limit).1 ∧
      (∀ p ∈ (list_recent st limit).1, p ∈ st) ∧
      (list_recent st limit).2 = st) ∧
    (∀ p1 p2 p3 : Paste, p1.created_at < p2.created_at → p2.created_at < p3.created_at →
      (list_recent [p1, p2, p3] 2).1 = [p3, p2]) := by
  constructor
  · intro st limit
    by_cases hneg : limit < 0
    · refine ⟨fun h0 => absurd h0 (by omega), fun _ => ?_, ?_, ?_, rfl⟩
      · show (if limit < 0 then st.insertionSort recentOrder
            else (st.insertionSort recentOrder).take limit.toNat).length = st.length
        rw [if_pos hneg]
        exact (List.perm_insertionSort recentOrder st).length_eq
      · show List.Sorted recentOrder (if limit < 0 then st.insertionSort recentOrder
            else (st.insertionSort recentOrder).take limit.toNat)
        rw [if_pos hneg]
        exact List.sorted_insertionSort recentOrder st
      · intro p hp
        rw [show (list_recent st limit).1 = st.insertionSort recentOrder from
          by simp [list_recent, if_pos hneg]] at hp
        exact (List.mem_insertionSort recentOrder).mp hp
    · refine ⟨fun _ => ?_, fun h => absurd h hneg, ?_, ?_, rfl⟩
      · show (((if limit < 0 then st.insertionSort recentOrder
            else (st.insertionSort recentOrder).take limit.toNat).length : Nat) : Int) ≤ limit
        rw [if_neg hneg, List.length_take]
        have h1 : min limit.toNat (st.insertionSort recentOrder).length ≤ limit.toNat :=
          min_le_left _ _
        omega
      · show List.Sorted recentOrder (if limit < 0 then st.insertionSort recentOrder
            else (st.insertionSort recentOrder).take limit.toNat)
        rw [if_neg hneg]
        exact List.Pairwise.sublist (List.take_sublist limit.toNat _)
          (List.sorted_insertionSort recentOrder st)
      · intro p hp
        rw [show (list_recent st limit).1 =
            (st.insertionSort recentOrder).take limit.toNat from
          by simp [list_recent, if_neg hneg]] at hp
        exact (List.mem_insertionSort recentOrder).mp (List.mem_of_mem_take hp)
  · intro p1 p2 p3 h12 h23
    have h13 : p1.created_at < p3.created_at := Nat.lt_trans h12 h23
    show ((List.insertionSort recentOrder [p1, p2, p3]).take 2) = [p3, p2]
    have e2 : List.orderedInsert recentOrder p2 [p3] = [p3, p2] := by
      rw [List.orderedInsert, if_neg (show ¬recentOrder p2 p3 by
        simp only [recentOrder]; omega)]
      rfl
    have e3 : List.orderedInsert recentOrder p1 [p3, p2] = [p3, p2, p1] := by
      rw [List.orderedInsert, if_neg (show ¬recentOrder p1 p3 by
        simp only [recentOrder]; omega)]
      rw [List.orderedInsert, if_neg (show ¬recentOrder p1 p2 by
        simp only [recentOrder]; omega)]
      rfl
    simp only [List.insertionSort, List.orderedInsert_nil]
    rw [e2, e3]
    rfl

/-- Witness for the amended C7: a nonnegative limit bounds the result, a
negative limit returns the whole store, and three concrete pastes with
timestamps 1 < 2 < 3 list as third-then-second. -/
theorem list_recent_spec_witness :
    (((list_recent [⟨"a1", none, "one", 1⟩] 5).1.length : Int) ≤ 5) ∧
    (list_recent [⟨"a1", none, "one", 1⟩] (-3)).1.length =
      ([⟨"a1", none, "one", 1⟩] : Store).length ∧
    (list_recent [⟨"a1", none, "one", 1⟩, ⟨"b2", none, "two", 2⟩,
        ⟨"c3", none, "three", 3⟩] 2).1 =
      [⟨"c3", none, "three", 3⟩, ⟨"b2", none, "two", 2⟩] :=
  ⟨(list_recent_spec.1 [⟨"a1", none, "one", 1⟩] 5).1 (by decide),
   (list_recent_spec.1 [⟨"a1", none, "one", 1⟩] (-3)).2.1 (by decide),
   list_recent_spec.2 ⟨"a1", none, "one", 1⟩ ⟨"b2", none, "two", 2⟩
     ⟨"c3", none, "three", 3⟩ (by decide) (by decide)⟩

/-- Claim C8 (get is a pure exact-match lookup): `get` leaves the store
unchanged, returns only a record whose slug equals the argument and which is in
the store, returns `none` exactly when no such record exists, and — starting
from an empty store — returns `none` on every slug never returned by `create`. -/
theorem get_pure_exact_lookup :
    (∀ (st : Store) (s : String), (get_paste st s).2 = st) ∧
    (∀ (st : Store) (s : String) (p : Paste),
      (get_paste st s).1 = some p → p.slug = s ∧ p ∈ st) ∧
    (∀ (st : Store) (s : String),
      (get_paste st s).1 = none ↔ ∀ p ∈ st, p.slug ≠ s) ∧
    (∀ (reqs : List CreateReq) (s : String),
      s ∉ (runCreates reqs []).1 → (get_paste (runCreates reqs []).2 s).1 = none) := by
  refine ⟨fun st s => rfl, fun st s p h => get_paste_some_inv st s p h,
    fun st s => get_paste_none_iff st s, ?_⟩
  intro reqs s hnot
  rw [get_paste_none_iff]
  intro p hp hps
  have hmem : s ∈ slugs (runCreates reqs []).2 := by
    rw [← hps]
    exact List.mem_map_of_mem Paste.slug hp
  rcases runCreates_slugs_from_returned reqs [] s hmem with h1 | h2
  · simp [slugs] at h1
  · exact hnot h2

/-- Witness for C8: after one concrete create, a slug that was never returned is
not found. -/
theorem get_pure_exact_lookup_witness :
    (get_paste (runCreates [⟨fun _ => 0, none, some "x", 0⟩] []).2 "zzzzzz").1 = none :=
  get_pure_exact_lookup.2.2.2 [⟨fun _ => 0, none, some "x", 0⟩] "zzzzzz" (by decide)

/-- Claim C9 (escaping policy at the HTTP boundary): the rendered paste view
substitutes the HTML-escaped title (the slug when the title is absent) and the
HTML-escaped content — strings containing no raw markup characters — into the
template, while the raw endpoint serves the stored content verbatim with
Content-Type `text/plain`. -/
theorem escaping_policy (tmpl : String) (p : Paste) (st : Store)
    (hget : (get_paste st p.slug).1 = some p) :
    render_paste_page tmpl p =
      ((((tmpl.replace "\x7b\x7bTITLE\x7d\x7d" (html_escape (pyOr p.title p.slug))).replace
          "\x7b\x7bCREATED_AT\x7d\x7d" (strftimeYmdHms p.created_at)).replace
          "\x7b\x7bSLUG\x7d\x7d" p.slug).replace
          "\x7b\x7bCONTENT\x7d\x7d" (html_escape p.content)) ∧
    (∀ c ∈ (html_escape (pyOr p.title p.slug)).data, c ≠ '<' ∧ c ≠ '>') ∧
    (∀ c ∈ (html_escape p.content).data, c ≠ '<' ∧ c ≠ '>') ∧
    serve_raw st p.slug = HttpRaw.ok "text/plain; charset=utf-8" p.content := by
  refine ⟨rfl, html_escape_no_markup _, html_escape_no_markup _, ?_⟩
  simp [serve_raw, hget]

/-- Witness for C9: a stored paste whose content contains markup is served raw,
unescaped, as text/plain. -/
theorem escaping_policy_witness :
    serve_raw [⟨"abc", none, "<b>hi", 5⟩] "abc" =
      HttpRaw.ok "text/plain; charset=utf-8" "<b>hi" :=
  (escaping_policy "X" ⟨"abc", none, "<b>hi", 5⟩ [⟨"abc", none, "<b>hi", 5⟩]
    (by decide)).2.2.2

/-- Claim C10 (tolerance of absent inputs): `create` is total on absent form
fields — a `None` content behaves exactly like empty content (failure value,
store untouched), and a `None` title behaves exactly like an empty title. -/
theorem create_tolerates_none_inputs :
    (∀ (rands : Nat → Nat) (title : Option String) (now : Nat) (st : Store),
      create_paste rands title none now st = (none, st) ∧
      create_paste rands title none now st = create_paste rands title (some "") now st) ∧
    (∀ (rands : Nat → Nat) (content : Option String) (now : Nat) (st : Store),
      create_paste rands none content now st = create_paste rands (some "") content now st) := by
  refine ⟨fun rands title now st => ⟨?_, rfl⟩, fun rands content now st => rfl⟩
  exact create_paste_of_empty rands title none now st rfl
